import Mathlib

/-!
# Verification of the rio-rita-chat room-session and webhook-routing core

Shallow embedding of the server core of `Suiteness/rio-rita-chat`
(`src/server/index.ts`, Durable Object variant `Chat`, plus the
partyserver variant in the same file).  The embedding models:

* the message store (`Chat.saveMessage`): an in-memory `ChatMessage` list
  plus the durable `messages` SQL table, whose upsert
  (`INSERT ... ON CONFLICT (id) DO UPDATE SET content = ...`)
  updates only the `content` column on conflict;
* the session registry (`session_registry` table in the `webhook-router`
  object, maintained with `INSERT OR REPLACE` keyed on `ticket_id`);
* the per-room session state machine (`setupGigaMLSessionAsync`,
  `handleWebSocketMessage`, `handleWebSocketClose`);
* the webhook pipeline (main worker entry → `routeGigaMLWebhook` →
  `handleGigaMLWebhook`) and the partyserver top-level webhook handler.

JS `Map`s are modelled as association lists with unique keys, SQL tables
as row lists, and broadcasts as an event log.  Nondeterministic inputs
(fresh ids `crypto.randomUUID()` / `Date.now()`-based ids, network
outcomes of external GigaML calls, per-connection send failures) are
explicit parameters.
-/

namespace RioRita

/-- `role: "user" | "assistant"` from `shared.ts` `ChatMessage`. -/
inductive Role where
  | user
  | assistant
deriving DecidableEq, Repr

/-- `ChatMessage` from `shared.ts`: `{id, content, user, role}`. -/
structure ChatMessage where
  id : String
  content : String
  user : String
  role : Role
deriving DecidableEq, Repr

/-- A row of the durable `messages` table:
`(id TEXT PRIMARY KEY, user TEXT, role TEXT, content TEXT)`. -/
structure MessageRow where
  id : String
  user : String
  role : Role
  content : String
deriving DecidableEq, Repr

/-- In-memory half of `Chat.saveMessage` (src/server/index.ts:594-605):
if a message with the same id exists, `this.messages` is rebuilt with
that entry replaced wholesale by the incoming message; otherwise the
message is pushed at the end. -/
def saveMessageMem (messages : List ChatMessage) (m : ChatMessage) : List ChatMessage :=
  if messages.any (fun x => x.id = m.id) then
    messages.map (fun x => if x.id = m.id then m else x)
  else
    messages ++ [m]

/-- Durable half of `Chat.saveMessage` (src/server/index.ts:607-615):
`INSERT INTO messages (id, user, role, content) VALUES (...) ON CONFLICT
(id) DO UPDATE SET content = ...`.  On conflict only the `content` column
is updated; `user` and `role` keep their first-write values. -/
def upsertRow (rows : List MessageRow) (m : ChatMessage) : List MessageRow :=
  if rows.any (fun r => r.id = m.id) then
    rows.map (fun r => if r.id = m.id then { r with content := m.content } else r)
  else
    rows ++ [⟨m.id, m.user, m.role, m.content⟩]

/-- Combined message-store state: the in-memory cache `this.messages`
and the durable `messages` table. -/
structure StoreState where
  messages : List ChatMessage
  rows : List MessageRow
deriving DecidableEq, Repr

/-- The empty store: fresh room, empty `messages` table. -/
def StoreState.empty : StoreState := ⟨[], []⟩

/-- `Chat.saveMessage` (src/server/index.ts:594-616): updates the
in-memory list and the durable table in one mutation. -/
def saveMessage (s : StoreState) (m : ChatMessage) : StoreState :=
  { messages := saveMessageMem s.messages m, rows := upsertRow s.rows m }

/-- Applying a whole sequence of `add`/`update` deliveries to the store. -/
def applyAll (ms : List ChatMessage) : StoreState :=
  ms.foldl saveMessage StoreState.empty

section StoreLemmas

/-- The ids of the in-memory list after a save: unchanged on replacement,
the new id appended on insert. -/
theorem saveMessageMem_map_id (acc : List ChatMessage) (m : ChatMessage) :
    (saveMessageMem acc m).map (·.id) =
      if acc.any (fun x => x.id = m.id) then acc.map (·.id)
      else acc.map (·.id) ++ [m.id] := by
  unfold saveMessageMem
  split
  · simp only [List.map_map]
    apply List.map_congr_left
    intro x _
    by_cases h : x.id = m.id <;> simp [h]
  · simp

/-- Finding by the saved id after a save yields the saved message. -/
theorem find?_saveMessageMem_self (acc : List ChatMessage) (m : ChatMessage) :
    (saveMessageMem acc m).find? (fun x => x.id = m.id) = some m := by
  unfold saveMessageMem
  split
  case isTrue h =>
    induction acc with
    | nil => simp at h
    | cons a t ih =>
      rw [List.map_cons]
      by_cases ha : a.id = m.id
      · rw [if_pos ha, List.find?_cons_of_pos _ (by simp)]
      · rw [if_neg ha, List.find?_cons_of_neg _ (by simp [ha])]
        apply ih
        simpa [List.any_cons, ha] using h
  case isFalse h =>
    rw [List.find?_append]
    have hnone : acc.find? (fun x => decide (x.id = m.id)) = none := by
      rw [List.find?_eq_none]
      intro x hx
      simp only [decide_eq_true_eq]
      intro hc
      exact h (by rw [List.any_eq_true]; exact ⟨x, hx, by simp [hc]⟩)
    rw [hnone]
    simp

/-- Finding by any other id is unaffected by a save. -/
theorem find?_saveMessageMem_other (acc : List ChatMessage) (m : ChatMessage)
    (i : String) (hi : i ≠ m.id) :
    (saveMessageMem acc m).find? (fun x => x.id = i) =
      acc.find? (fun x => x.id = i) := by
  unfold saveMessageMem
  split
  case isTrue h =>
    clear h
    induction acc with
    | nil => simp
    | cons a t ih =>
      rw [List.map_cons]
      by_cases ha : a.id = m.id
      · have hne : ¬ a.id = i := fun hc => hi (hc.symm.trans ha)
        have hne' : ¬ m.id = i := fun hc => hi hc.symm
        rw [if_pos ha, List.find?_cons_of_neg _ (by simp [hne']),
          List.find?_cons_of_neg _ (by simp [hne])]
        exact ih
      · by_cases hai : a.id = i
        · rw [if_neg ha, List.find?_cons_of_pos _ (by simp [hai]),
            List.find?_cons_of_pos _ (by simp [hai])]
        · rw [if_neg ha, List.find?_cons_of_neg _ (by simp [hai]),
            List.find?_cons_of_neg _ (by simp [hai])]
          exact ih
  case isFalse h =>
    rw [List.find?_append]
    have hsing : List.find? (fun x => decide (x.id = i)) [m] = none := by
      simp [hi.symm]
    rw [hsing, Option.or_none]

/-- A save never duplicates an id in the in-memory list. -/
theorem nodup_ids_saveMessageMem (acc : List ChatMessage) (m : ChatMessage)
    (h : (acc.map (·.id)).Nodup) :
    ((saveMessageMem acc m).map (·.id)).Nodup := by
  rw [saveMessageMem_map_id]
  split
  · exact h
  case isFalse hany =>
    rw [List.nodup_append]
    refine ⟨h, List.nodup_singleton _, ?_⟩
    intro x hx hx'
    rw [List.mem_singleton] at hx'
    subst hx'
    rw [List.mem_map] at hx
    obtain ⟨y, hy, hyid⟩ := hx
    exact hany (by rw [List.any_eq_true]; exact ⟨y, hy, by simp [hyid]⟩)

/-- The ids of the durable rows after an upsert: unchanged on conflict,
the new id appended on plain insert. -/
theorem upsertRow_map_id (rows : List MessageRow) (m : ChatMessage) :
    (upsertRow rows m).map (·.id) =
      if rows.any (fun r => r.id = m.id) then rows.map (·.id)
      else rows.map (·.id) ++ [m.id] := by
  unfold upsertRow
  split
  · simp only [List.map_map]
    apply List.map_congr_left
    intro r _
    by_cases h : r.id = m.id <;> simp [h]
  · simp

/-- On conflict the durable upsert rewrites only the `content` column of
the existing row; on insert the full row is appended. -/
theorem find?_upsertRow_self (rows : List MessageRow) (m : ChatMessage) :
    (upsertRow rows m).find? (fun r => r.id = m.id) =
      match rows.find? (fun r => r.id = m.id) with
      | some r0 => some { r0 with content := m.content }
      | none => some ⟨m.id, m.user, m.role, m.content⟩ := by
  unfold upsertRow
  split
  case isTrue h =>
    induction rows with
    | nil => simp at h
    | cons a t ih =>
      by_cases ha : a.id = m.id
      · rw [List.map_cons, if_pos ha, List.find?_cons_of_pos _ (by simp [ha]),
          List.find?_cons_of_pos _ (by simp [ha])]
      · rw [List.map_cons, if_neg ha, List.find?_cons_of_neg _ (by simp [ha]),
          List.find?_cons_of_neg _ (by simp [ha])]
        exact ih (by simpa [List.any_cons, ha] using h)
  case isFalse h =>
    have hnone : rows.find? (fun r => decide (r.id = m.id)) = none := by
      rw [List.find?_eq_none]
      intro r hr
      simp only [decide_eq_true_eq]
      intro hc
      exact h (by rw [List.any_eq_true]; exact ⟨r, hr, by simp [hc]⟩)
    rw [List.find?_append, hnone]
    simp

/-- Finding a durable row by any other id is unaffected by an upsert. -/
theorem find?_upsertRow_other (rows : List MessageRow) (m : ChatMessage)
    (i : String) (hi : i ≠ m.id) :
    (upsertRow rows m).find? (fun r => r.id = i) =
      rows.find? (fun r => r.id = i) := by
  unfold upsertRow
  split
  case isTrue h =>
    clear h
    induction rows with
    | nil => simp
    | cons a t ih =>
      rw [List.map_cons]
      by_cases ha : a.id = m.id
      · have hne : ¬ a.id = i := fun hc => hi (hc.symm.trans ha)
        rw [if_pos ha, List.find?_cons_of_neg _ (by simp [hne]),
          List.find?_cons_of_neg _ (by simp [hne])]
        exact ih
      · by_cases hai : a.id = i
        · rw [if_neg ha, List.find?_cons_of_pos _ (by simp [hai]),
            List.find?_cons_of_pos _ (by simp [hai])]
        · rw [if_neg ha, List.find?_cons_of_neg _ (by simp [hai]),
            List.find?_cons_of_neg _ (by simp [hai])]
          exact ih
  case isFalse h =>
    rw [List.find?_append]
    have hsing : List.find? (fun r => decide (r.id = i))
        ([⟨m.id, m.user, m.role, m.content⟩] : List MessageRow) = none := by
      simp [hi.symm]
    rw [hsing, Option.or_none]

end StoreLemmas

/-- Folding a sequence through the store, one message at a time. -/
theorem applyAll_append_singleton (ms : List ChatMessage) (m : ChatMessage) :
    applyAll (ms ++ [m]) = saveMessage (applyAll ms) m := by
  simp [applyAll, List.foldl_append]

/-- C1: For every sequence of `add`/`update` deliveries to one room,
possibly with repeated message ids, the saveMessage-maintained in-memory
message list ends with exactly one entry per id (its ids are pairwise
distinct), and the entry stored under any id is exactly the last applied
write with that id (so in particular its content is the content of the
last applied write). -/
theorem upsert_idempotence (ms : List ChatMessage) :
    (((applyAll ms).messages.map (·.id)).Nodup) ∧
    ∀ i : String, (applyAll ms).messages.find? (fun x => x.id = i) =
      ms.reverse.find? (fun x => x.id = i) := by
  induction ms using List.reverseRecOn with
  | nil => simp [applyAll, StoreState.empty]
  | append_singleton ms m ih =>
    rw [applyAll_append_singleton]
    refine ⟨nodup_ids_saveMessageMem _ _ ih.1, ?_⟩
    intro i
    rw [List.reverse_append, List.reverse_singleton, List.singleton_append]
    by_cases hi : i = m.id
    · subst hi
      rw [show (saveMessage (applyAll ms) m).messages
          = saveMessageMem (applyAll ms).messages m from rfl,
        find?_saveMessageMem_self, List.find?_cons_of_pos _ (by simp)]
    · rw [show (saveMessage (applyAll ms) m).messages
          = saveMessageMem (applyAll ms).messages m from rfl,
        find?_saveMessageMem_other _ _ _ hi,
        List.find?_cons_of_neg _ (by simp; exact fun hc => hi hc.symm)]
      exact ih.2 i

/-- The spec's byte-consistency of the durable copy with memory
(§4.1): reloading the `messages` table reproduces the in-memory list
field for field.  (This definition follows the spec's words; it is the
property claim C2 asserts of `saveMessage`.) -/
def byteConsistent (s : StoreState) : Prop :=
  s.rows = s.messages.map (fun m => MessageRow.mk m.id m.user m.role m.content)

instance : DecidablePred byteConsistent := fun s => by
  unfold byteConsistent; infer_instance

/-- C2 counterexample: byte-consistency fails on the concrete delivery
sequence `[{id m1, user alice, role user, content x},
{id m1, user bob, role assistant, content y}]` — the durable row keeps
`user = alice, role = user` while the in-memory entry has
`user = bob, role = assistant`. -/
theorem saveMessage_not_byte_consistent :
    ¬ ∀ ms : List ChatMessage, byteConsistent (applyAll ms) := by
  intro h
  have hc := h [⟨"m1", "x", "alice", .user⟩, ⟨"m1", "y", "bob", .assistant⟩]
  revert hc
  decide

/-- C2 amended: after every sequence of saveMessage mutations the durable
row under each id agrees with the in-memory entry on id and content (so
content is always byte-consistent), but the durable `user` and `role`
columns hold the values of the FIRST write with that id — full
byte-consistency holds only when no later write reuses an id with a
different user or role. -/
theorem durable_row_tracks_memory (ms : List ChatMessage) (i : String) :
    ((applyAll ms).rows.find? (fun r => r.id = i)).map (fun r => (r.id, r.content)) =
      ((applyAll ms).messages.find? (fun x => x.id = i)).map (fun x => (x.id, x.content)) ∧
    ((applyAll ms).rows.find? (fun r => r.id = i)).map (fun r => (r.user, r.role)) =
      (ms.find? (fun x => x.id = i)).map (fun x => (x.user, x.role)) := by
  induction ms using List.reverseRecOn with
  | nil => simp [applyAll, StoreState.empty]
  | append_singleton ms m ih =>
    obtain ⟨ih1, ih2⟩ := ih
    rw [applyAll_append_singleton]
    have hrows : (saveMessage (applyAll ms) m).rows = upsertRow (applyAll ms).rows m := rfl
    have hmem : (saveMessage (applyAll ms) m).messages
        = saveMessageMem (applyAll ms).messages m := rfl
    by_cases hi : i = m.id
    · subst hi
      rw [hrows, hmem, find?_upsertRow_self, find?_saveMessageMem_self]
      cases hrow : (applyAll ms).rows.find? (fun r => decide (r.id = m.id)) with
      | some r0 =>
        have hr0 : r0.id = m.id :=
          of_decide_eq_true
            (List.find?_some (p := fun (r : MessageRow) => decide (r.id = m.id)) hrow)
        constructor
        · simp [hr0]
        · rw [List.find?_append]
          rw [hrow] at ih2
          cases hf : ms.find? (fun x => decide (x.id = m.id)) with
          | none => rw [hf] at ih2; simp at ih2
          | some f =>
            rw [hf] at ih2
            simpa using ih2
      | none =>
        constructor
        · simp
        · rw [List.find?_append]
          rw [hrow] at ih2
          cases hf : ms.find? (fun x => decide (x.id = m.id)) with
          | some f => rw [hf] at ih2; simp at ih2
          | none => simp
    · have hsing : List.find? (fun x => decide (x.id = i)) [m] = none := by
        simp [Ne.symm hi]
      rw [hrows, hmem, find?_upsertRow_other _ _ _ hi,
        find?_saveMessageMem_other _ _ _ hi, List.find?_append, hsing, Option.or_none]
      exact ⟨ih1, ih2⟩

/-- C10: an `update` whose id conflicts with a stored row rewrites the
in-memory entry wholesale (new user, role, content) while the durable
conflict branch updates only the content column, retaining the original
row's user and role — so on a user/role change the two copies diverge. -/
theorem conflict_update_keeps_user_role (s : StoreState) (m : ChatMessage)
    (r0 : MessageRow)
    (hrow : s.rows.find? (fun r => r.id = m.id) = some r0) :
    (saveMessage s m).rows.find? (fun r => r.id = m.id)
        = some ⟨r0.id, r0.user, r0.role, m.content⟩ ∧
    (saveMessage s m).messages.find? (fun x => x.id = m.id) = some m := by
  constructor
  · rw [show (saveMessage s m).rows = upsertRow s.rows m from rfl,
      find?_upsertRow_self, hrow]
  · exact find?_saveMessageMem_self s.messages m

/-- Witness for C10 at a concrete conflicting update: the durable row
keeps alice/user while memory holds the whole new message bob/assistant. -/
theorem conflict_update_keeps_user_role_witness :
    (saveMessage ⟨[⟨"m1", "x", "alice", .user⟩], [⟨"m1", "alice", .user, "x"⟩]⟩
        ⟨"m1", "y", "bob", .assistant⟩).rows.find? (fun r => r.id = "m1")
        = some ⟨"m1", "alice", .user, "y"⟩ ∧
    (saveMessage ⟨[⟨"m1", "x", "alice", .user⟩], [⟨"m1", "alice", .user, "x"⟩]⟩
        ⟨"m1", "y", "bob", .assistant⟩).messages.find? (fun x => x.id = "m1")
        = some ⟨"m1", "y", "bob", .assistant⟩ :=
  conflict_update_keeps_user_role
    ⟨[⟨"m1", "x", "alice", .user⟩], [⟨"m1", "alice", .user, "x"⟩]⟩
    ⟨"m1", "y", "bob", .assistant⟩ ⟨"m1", "alice", .user, "x"⟩ (by decide)

/-! ## Room session state: connections, GigaML sessions, registry -/

/-- `status: "active" | "closed"` of `GigaMLSession` and of the
`gigaml_sessions.status` column. -/
inductive SessStatus where
  | active
  | closed
deriving DecidableEq, Repr

/-- `GigaMLSession` (src/server/index.ts:12-17). -/
structure GigaMLSession where
  ticketId : String
  userId : String
  status : SessStatus
  createdAt : String
deriving DecidableEq, Repr

/-- A row of the durable `gigaml_sessions` table:
`(connection_id TEXT PRIMARY KEY, ticket_id, user_id, room_id, status, created_at)`. -/
structure SessionRow where
  connectionId : String
  ticketId : String
  userId : String
  roomId : String
  status : SessStatus
  createdAt : String
deriving DecidableEq, Repr

/-- Value type of `this.connections : Map<WebSocket, {id, gigamlSession?}>`. -/
structure ConnData where
  id : String
  gigamlSession : Option GigaMLSession
deriving DecidableEq, Repr

/-- The `Message` union from `shared.ts` (the post-connect `connection`
acknowledgment is untyped in the source and irrelevant to the claims). -/
inductive Message where
  | add (m : ChatMessage)
  | update (m : ChatMessage)
  | all (ms : List ChatMessage)
deriving DecidableEq, Repr

/-- An outbound GigaML API call, recorded for frame reasoning
(`initiateGigaMLSession` / `sendMessageToGigaML` / `closeGigaMLSession`). -/
inductive GatewayCall where
  | initiate (userId ticketId : String)
  | send (ticketId content : String)
  | close (ticketId : String)
deriving DecidableEq, Repr

/-- One room's Durable Object state.  WebSockets are identified by `Nat`
keys; the JS `Map`s become association lists with unique keys; broadcasts
are recorded in an event log. -/
structure RoomState where
  connections : List (Nat × ConnData)
  gigamlSessions : List (String × GigaMLSession)
  sessionRows : List SessionRow
  store : StoreState
  broadcasts : List Message
  gatewayCalls : List GatewayCall
deriving DecidableEq, Repr

/-- The room under consideration together with the `webhook-router`
object's durable `session_registry` table
(`(ticket_id TEXT PRIMARY KEY, room_id, created_at)`; `created_at` is
not read anywhere, so entries are modelled as ticket/room pairs). -/
structure SystemState where
  room : RoomState
  registry : List (String × String)
deriving DecidableEq, Repr

/-- `Chat.broadcast` (src/server/index.ts:68-77): sends to every
connection not excluded; a connection whose `send` throws is silently
dropped from the connection map.  `failed` is the (nondeterministic) set
of connections whose send throws on this broadcast. -/
def broadcastStep (r : RoomState) (msg : Message) (exclude : List Nat)
    (failed : List Nat) : RoomState :=
  { r with
    connections := r.connections.filter (fun c => ¬(c.1 ∈ failed ∧ c.1 ∉ exclude)),
    broadcasts := r.broadcasts ++ [msg] }

/-- `saveMessage` + `broadcastMessage` of a synthesized system/assistant
notice (the pattern used by every error path of the handlers). -/
def postSystemMessage (r : RoomState) (i content : String)
    (failed : List Nat) : RoomState :=
  let em : ChatMessage := ⟨i, content, "system", .assistant⟩
  broadcastStep { r with store := saveMessage r.store em } (.add em) [] failed

/-- `handleSessionRegistration` (src/server/index.ts:823-845):
`INSERT OR REPLACE INTO session_registry` keyed on the `ticket_id`
primary key — SQLite REPLACE deletes any conflicting row and inserts. -/
def registryUpsert (reg : List (String × String)) (tid roomId : String) :
    List (String × String) :=
  reg.filter (fun e => ¬ e.1 = tid) ++ [(tid, roomId)]

/-- The existing-session scan of `setupGigaMLSessionAsync`
(src/server/index.ts:184-212): first the in-memory session map, then the
durable table (`WHERE ticket_id = ? AND status = 'active' LIMIT 1`). -/
def findExistingSession (r : RoomState) (tid : String) : Option GigaMLSession :=
  match r.gigamlSessions.find?
      (fun p => p.2.ticketId = tid ∧ p.2.status = SessStatus.active) with
  | some p => some p.2
  | none =>
    match r.sessionRows.find?
        (fun row => row.ticketId = tid ∧ row.status = SessStatus.active) with
    | some row => some (GigaMLSession.mk row.ticketId row.userId row.status row.createdAt)
    | none => none

/-- Binding the session to the connection
(src/server/index.ts:252-291): stale mappings of the same ticket under
other connection ids are deleted, the session is stored under this
connection id, and the connection data gets the session attached
(re-created if it went missing). -/
def attachSession (r : RoomState) (ws : Nat) (connId : String)
    (sess : GigaMLSession) : RoomState :=
  let cleaned := r.gigamlSessions.filter
    (fun p => ¬(p.2.ticketId = sess.ticketId ∧ ¬ p.1 = connId))
  let sessions :=
    if cleaned.any (fun p => p.1 = connId) then
      cleaned.map (fun p => if p.1 = connId then (connId, sess) else p)
    else cleaned ++ [(connId, sess)]
  let conns :=
    if r.connections.any (fun c => c.1 = ws) then
      r.connections.map (fun c => if c.1 = ws then (c.1, ⟨c.2.id, some sess⟩) else c)
    else r.connections ++ [(ws, ⟨connId, some sess⟩)]
  { r with gigamlSessions := sessions, connections := conns }

/-- One invocation of `setupGigaMLSessionAsync` with its nondeterministic
inputs: `tid` is `originalRoomId || this.state.id.toString()`, `connId`
the fresh connection id (also used as `userId`), `initiateOk` the outcome
of the external initiate-session call, `errId` the fresh id of the
catch-branch error message. -/
structure SetupEvent where
  ws : Nat
  connId : String
  tid : String
  createdAt : String
  initiateOk : Bool
  errId : String
deriving DecidableEq, Repr

/-- `setupGigaMLSessionAsync` (src/server/index.ts:178-328).  Returns the
new state and whether an external initiate-session call was made
(`false` = the existing session was reused). -/
def setupGigaMLSession (st : SystemState) (e : SetupEvent) : SystemState × Bool :=
  match findExistingSession st.room e.tid with
  | some sess =>
    let st1 := { st with registry := registryUpsert st.registry sess.ticketId e.tid }
    ({ st1 with room := attachSession st1.room e.ws e.connId sess }, false)
  | none =>
    if e.initiateOk then
      let sess : GigaMLSession := ⟨e.tid, e.connId, .active, e.createdAt⟩
      let room1 := { st.room with
        sessionRows := st.room.sessionRows ++
          [⟨e.connId, e.tid, e.connId, e.tid, .active, e.createdAt⟩],
        gatewayCalls := st.room.gatewayCalls ++ [.initiate e.connId e.tid] }
      let st1 := { st with room := room1,
                           registry := registryUpsert st.registry e.tid e.tid }
      ({ st1 with room := attachSession st1.room e.ws e.connId sess }, true)
    else
      let em : ChatMessage := ⟨e.errId,
        "AI assistant is currently unavailable. You can still send messages and they will be processed when the service is restored.",
        "system", .assistant⟩
      let room1 := { st.room with
        gatewayCalls := st.room.gatewayCalls ++ [GatewayCall.initiate e.connId e.tid] }
      let room2 :=
        if room1.connections.any (fun c => c.1 = e.ws) then room1
        else { room1 with
          connections := room1.connections ++ [(e.ws, ConnData.mk e.connId none)] }
      let room3 := { room2 with store := saveMessage room2.store em }
      ({ st with room :=
          { room3 with broadcasts := room3.broadcasts ++ [Message.add em] } }, true)

/-- A whole sequence of connection setups (connects and reconnects). -/
def applySetups (st : SystemState) (es : List SetupEvent) : SystemState :=
  es.foldl (fun s e => (setupGigaMLSession s e).1) st

/-- `handleWebSocketClose` (src/server/index.ts:518-554): if the closing
connection had a bound session, only the session-map entry under this
connection's id is deleted; then the connection-map entry is removed.
The session registry, the durable tables and the store are untouched and
no gateway call is made. -/
def handleWebSocketClose (st : SystemState) (ws : Nat) : SystemState :=
  let r := st.room
  let sessions :=
    match r.connections.find? (fun c => c.1 = ws) with
    | some c =>
      match c.2.gigamlSession with
      | some _ => r.gigamlSessions.filter (fun p => ¬ p.1 = c.2.id)
      | none => r.gigamlSessions
    | none => r.gigamlSessions
  { st with room := { r with
      gigamlSessions := sessions,
      connections := r.connections.filter (fun c => ¬ c.1 = ws) } }

/-- C4: handling a client disconnect removes only that connection's
ephemeral state — its entry in the connection map and (when a session was
bound) the session-map entry under its connection id.  The session
registry, the durable session rows, the message store and the gateway
call log are unchanged (so no registry entry is unregistered, no close
call is made) and every surviving in-memory session is bit-identical to
before (so no status is ever set to closed). -/
theorem disconnect_removes_only_binding (st : SystemState) (ws : Nat) :
    (handleWebSocketClose st ws).registry = st.registry ∧
    (handleWebSocketClose st ws).room.sessionRows = st.room.sessionRows ∧
    (handleWebSocketClose st ws).room.store = st.room.store ∧
    (handleWebSocketClose st ws).room.gatewayCalls = st.room.gatewayCalls ∧
    (∀ p ∈ (handleWebSocketClose st ws).room.gigamlSessions,
      p ∈ st.room.gigamlSessions) ∧
    (∀ p ∈ st.room.gigamlSessions,
      p ∉ (handleWebSocketClose st ws).room.gigamlSessions →
      ∃ q, st.room.connections.find? (fun c => c.1 = ws) = some q ∧ p.1 = q.2.id) ∧
    (∀ c ∈ st.room.connections,
      c ∉ (handleWebSocketClose st ws).room.connections → c.1 = ws) := by
  unfold handleWebSocketClose
  refine ⟨rfl, rfl, rfl, rfl, ?_, ?_, ?_⟩
  · intro p hp
    dsimp only at hp
    split at hp
    · split at hp
      · exact List.mem_of_mem_filter hp
      · exact hp
    · exact hp
  · intro p hp hnp
    dsimp only at hnp
    split at hnp
    next c heq =>
      split at hnp
      next s hs =>
        refine ⟨c, heq, ?_⟩
        by_contra hne
        exact hnp (List.mem_filter.mpr ⟨hp, by simpa using hne⟩)
      next hs => exact absurd hp hnp
    next heq => exact absurd hp hnp
  · intro c hc hnc
    dsimp only at hnc
    by_contra hne
    exact hnc (List.mem_filter.mpr ⟨hc, by simpa using hne⟩)

/-- The registry REPLACE-upsert keeps ticket ids pairwise distinct. -/
theorem registryUpsert_nodup (reg : List (String × String)) (tid roomId : String)
    (h : (reg.map Prod.fst).Nodup) :
    ((registryUpsert reg tid roomId).map Prod.fst).Nodup := by
  unfold registryUpsert
  rw [List.map_append, List.nodup_append]
  refine ⟨((List.filter_sublist _).map Prod.fst).nodup h, by simp, ?_⟩
  intro x hx hx'
  simp only [List.map_singleton, List.mem_singleton] at hx'
  subst hx'
  rw [List.mem_map] at hx
  obtain ⟨e, he, hfst⟩ := hx
  have := List.of_mem_filter he
  simp only [decide_eq_true_eq] at this
  exact this hfst

/-- One setup invocation keeps the registry free of duplicate tickets
(the failure branch leaves the registry untouched; the reuse and create
branches both go through the REPLACE-upsert). -/
theorem setup_registry_nodup (st : SystemState) (e : SetupEvent)
    (h : (st.registry.map Prod.fst).Nodup) :
    (((setupGigaMLSession st e).1.registry).map Prod.fst).Nodup := by
  unfold setupGigaMLSession
  cases hfind : findExistingSession st.room e.tid with
  | some sess =>
    dsimp only
    exact registryUpsert_nodup _ _ _ h
  | none =>
    by_cases hok : e.initiateOk
    · simp only [hok, if_true]
      exact registryUpsert_nodup _ _ _ h
    · simp only [hok, if_false]
      exact h

/-- C5: for every sequence of connects/reconnects processed by
`setupGigaMLSessionAsync`, the session registry keeps at most one entry
per ticketId (its ticket ids stay pairwise distinct — re-registration is
an idempotent REPLACE-upsert); and whenever an active session for the
room's ticketId already exists in memory or in the durable session table,
setup reuses it — no external initiate-session call is made and the
reused session carries exactly the existing ticketId. -/
theorem session_reuse_and_registry_unique :
    (∀ (st : SystemState) (es : List SetupEvent),
      (st.registry.map Prod.fst).Nodup →
      (((applySetups st es).registry).map Prod.fst).Nodup) ∧
    (∀ (st : SystemState) (e : SetupEvent) (sess : GigaMLSession),
      findExistingSession st.room e.tid = some sess →
      (setupGigaMLSession st e).2 = false ∧ sess.ticketId = e.tid) := by
  constructor
  · intro st es h
    induction es generalizing st with
    | nil => exact h
    | cons e t ih => exact ih _ (setup_registry_nodup st e h)
  · intro st e sess hfind
    constructor
    · unfold setupGigaMLSession
      rw [hfind]
    · unfold findExistingSession at hfind
      cases hm : st.room.gigamlSessions.find?
          (fun p => p.2.ticketId = e.tid ∧ p.2.status = SessStatus.active) with
      | some p =>
        rw [hm] at hfind
        have hp := List.find?_some hm
        simp only [decide_eq_true_eq] at hp
        cases hfind
        exact hp.1
      | none =>
        rw [hm] at hfind
        cases hr : st.room.sessionRows.find?
            (fun row => row.ticketId = e.tid ∧ row.status = SessStatus.active) with
        | some row =>
          rw [hr] at hfind
          have hrow := List.find?_some hr
          simp only [decide_eq_true_eq] at hrow
          cases hfind
          exact hrow.1
        | none =>
          rw [hr] at hfind
          cases hfind

/-- Witness for C5: a reconnect against a room whose durable session
table already holds an active session for ticket r1 makes no initiate
call and reuses ticket r1; and a concrete setup sequence keeps the
registry's ticket ids distinct. -/
theorem session_reuse_and_registry_unique_witness :
    (((applySetups
        ⟨⟨[], [], [⟨"c0", "r1", "c0", "r1", SessStatus.active, "t0"⟩],
          StoreState.empty, [], []⟩, [("r1", "r1")]⟩
        [⟨1, "c1", "r1", "t1", true, "e1"⟩]).registry).map Prod.fst).Nodup ∧
    ((setupGigaMLSession
        ⟨⟨[], [], [⟨"c0", "r1", "c0", "r1", SessStatus.active, "t0"⟩],
          StoreState.empty, [], []⟩, [("r1", "r1")]⟩
        ⟨1, "c1", "r1", "t1", true, "e1"⟩).2 = false ∧
      (GigaMLSession.mk "r1" "c0" SessStatus.active "t0").ticketId = "r1") :=
  ⟨session_reuse_and_registry_unique.1
      ⟨⟨[], [], [⟨"c0", "r1", "c0", "r1", SessStatus.active, "t0"⟩],
        StoreState.empty, [], []⟩, [("r1", "r1")]⟩
      [⟨1, "c1", "r1", "t1", true, "e1"⟩] (by decide),
   session_reuse_and_registry_unique.2
      ⟨⟨[], [], [⟨"c0", "r1", "c0", "r1", SessStatus.active, "t0"⟩],
        StoreState.empty, [], []⟩, [("r1", "r1")]⟩
      ⟨1, "c1", "r1", "t1", true, "e1"⟩
      (GigaMLSession.mk "r1" "c0" SessStatus.active "t0") (by decide)⟩

/-! ## Incoming client messages (`handleWebSocketMessage`) -/

/-- One `webSocketMessage` delivery with its nondeterministic inputs:
`gw` is the outcome of the `sendMessageToGigaML` HTTP call if one is
attempted (`true` = 2xx), `errId` the fresh `error_$\x7bDate.now()\x7d` /
`info_$\x7bDate.now()\x7d` id used by whichever notice branch fires,
`freshConnId` the `crypto.randomUUID()` of the recovery branches, and
`failedSends` the connections whose `ws.send` throws during broadcasts
of this step. -/
structure MsgEvent where
  ws : Nat
  msg : Message
  gw : Bool
  errId : String
  freshConnId : String
  failedSends : List Nat
deriving DecidableEq, Repr

/-- `SELECT * FROM gigaml_sessions WHERE status = 'active' ORDER BY
created_at DESC LIMIT 1` (src/server/index.ts:387-389).  SQLite's order
among equal `created_at` values is unspecified; this model keeps the
first row with the maximal `created_at`. -/
def latestActiveRow (rows : List SessionRow) : Option SessionRow :=
  (rows.filter (fun row => row.status = SessStatus.active)).foldl
    (fun acc row =>
      match acc with
      | none => some row
      | some b => if b.createdAt < row.createdAt then some row else some b)
    none

/-- The session-forwarding tail of `handleWebSocketMessage`
(src/server/index.ts:473-513): with a bound active session the message
content is sent to GigaML, a failure being converted into a persisted
and broadcast apology; with no bound session a "setting up" notice is
posted; a bound non-active session does nothing. -/
def forwardStep (r : RoomState) (e : MsgEvent) (m : ChatMessage)
    (cd : ConnData) : RoomState :=
  match cd.gigamlSession with
  | some sess =>
    if sess.status = SessStatus.active then
      let r1 := { r with
        gatewayCalls := r.gatewayCalls ++ [GatewayCall.send sess.ticketId m.content] }
      if e.gw then r1
      else postSystemMessage r1 e.errId
        "Sorry, I'm having trouble connecting to the AI assistant. Please try again."
        e.failedSends
    else r
  | none =>
    postSystemMessage r e.errId
      "Setting up AI assistant connection. Please wait a moment and try again."
      e.failedSends

/-- The missing-connection-data recovery of `handleWebSocketMessage`
(src/server/index.ts:364-471): adopt the first active in-memory session,
else the latest active durable row (re-adding it to memory under a fresh
connection id), else create bare connection data, post the reconnecting
notice and return (the emergency async session setup it schedules is a
separate later `SetupEvent`). -/
def recoverConnection (r : RoomState) (e : MsgEvent) (m : ChatMessage) : RoomState :=
  match r.gigamlSessions.find? (fun p => p.2.status = SessStatus.active) with
  | some p =>
    let cd : ConnData := ⟨p.1, some p.2⟩
    forwardStep { r with connections := r.connections ++ [(e.ws, cd)] } e m cd
  | none =>
    match latestActiveRow r.sessionRows with
    | some row =>
      let sess : GigaMLSession := ⟨row.ticketId, row.userId, row.status, row.createdAt⟩
      let cd : ConnData := ⟨e.freshConnId, some sess⟩
      forwardStep { r with
        gigamlSessions := r.gigamlSessions ++ [(e.freshConnId, sess)],
        connections := r.connections ++ [(e.ws, cd)] } e m cd
    | none =>
      postSystemMessage
        { r with connections := r.connections ++ [(e.ws, ConnData.mk e.freshConnId none)] }
        e.errId
        "Reconnecting to AI assistant. Your message will be processed shortly."
        e.failedSends

/-- `handleWebSocketMessage` (src/server/index.ts:330-516): broadcast the
raw message to the other connections first, then for `add`/`update`
persist it via `saveMessage`; a user-role message is then forwarded to
GigaML through the bound session, with the recovery path when the
connection data is missing. -/
def handleWebSocketMessage (r : RoomState) (e : MsgEvent) : RoomState :=
  let r0 := broadcastStep r e.msg [e.ws] e.failedSends
  match e.msg with
  | .all _ => r0
  | .add m | .update m =>
    let r1 := { r0 with store := saveMessage r0.store m }
    if m.role = Role.user then
      match r1.connections.find? (fun c => c.1 = e.ws) with
      | some c => forwardStep r1 e m c.2
      | none => recoverConnection r1 e m
    else r1

/-- A broadcast on which no local send throws only appends to the log. -/
theorem broadcastStep_nofail (r : RoomState) (msg : Message) (ex : List Nat) :
    broadcastStep r msg ex [] = { r with broadcasts := r.broadcasts ++ [msg] } := by
  unfold broadcastStep
  simp

/-- Posting a system notice with no failing local sends: persist, then log. -/
theorem postSystemMessage_nofail (r : RoomState) (i s : String) :
    postSystemMessage r i s [] =
      { r with store := saveMessage r.store ⟨i, s, "system", Role.assistant⟩,
               broadcasts := r.broadcasts ++ [Message.add ⟨i, s, "system", Role.assistant⟩] } := by
  unfold postSystemMessage
  rw [broadcastStep_nofail]

/-- C6: when a user-role `add`/`update` arrives on a connection bound to
an active session and the external send fails (non-2xx / transport
error), the failure is absorbed: the handler returns normally with the
connection set unchanged (no connection terminated, assuming the local
broadcasts themselves deliver), the user's own message is persisted, and
an assistant-role apology message is persisted and broadcast. -/
theorem gateway_send_failure_recovered (r : RoomState) (e : MsgEvent)
    (m : ChatMessage) (q : Nat × ConnData) (sess : GigaMLSession)
    (hmsg : e.msg = Message.add m ∨ e.msg = Message.update m)
    (hrole : m.role = Role.user)
    (hfail : e.failedSends = [])
    (hconn : r.connections.find? (fun c => c.1 = e.ws) = some q)
    (hsess : q.2.gigamlSession = some sess)
    (hact : sess.status = SessStatus.active)
    (hgw : e.gw = false)
    (hid : e.errId ≠ m.id) :
    (handleWebSocketMessage r e).connections = r.connections ∧
    (handleWebSocketMessage r e).store.messages.find? (fun x => x.id = m.id) = some m ∧
    (handleWebSocketMessage r e).store.messages.find? (fun x => x.id = e.errId) =
      some ⟨e.errId,
        "Sorry, I'm having trouble connecting to the AI assistant. Please try again.",
        "system", Role.assistant⟩ ∧
    Message.add ⟨e.errId,
        "Sorry, I'm having trouble connecting to the AI assistant. Please try again.",
        "system", Role.assistant⟩ ∈ (handleWebSocketMessage r e).broadcasts := by
  have hfinal : handleWebSocketMessage r e =
      { r with
        store := saveMessage (saveMessage r.store m)
          ⟨e.errId,
            "Sorry, I'm having trouble connecting to the AI assistant. Please try again.",
            "system", Role.assistant⟩,
        broadcasts := (r.broadcasts ++ [e.msg]) ++
          [Message.add ⟨e.errId,
            "Sorry, I'm having trouble connecting to the AI assistant. Please try again.",
            "system", Role.assistant⟩],
        gatewayCalls := r.gatewayCalls ++ [GatewayCall.send sess.ticketId m.content] } := by
    rcases hmsg with hmsg | hmsg <;>
      simp [handleWebSocketMessage, forwardStep, postSystemMessage, broadcastStep,
        hmsg, hrole, hfail, hconn, hsess, hact, hgw]
  rw [hfinal]
  dsimp only [saveMessage]
  refine ⟨rfl, ?_, ?_, ?_⟩
  · rw [find?_saveMessageMem_other _ _ _ (fun hc => hid hc.symm),
      find?_saveMessageMem_self]
  · exact find?_saveMessageMem_self (saveMessageMem r.store.messages m)
      ⟨e.errId,
        "Sorry, I'm having trouble connecting to the AI assistant. Please try again.",
        "system", Role.assistant⟩
  · simp

/-- Witness for C6: a concrete user message on a bound active session
with a failing gateway send. -/
theorem gateway_send_failure_recovered_witness :
    ((handleWebSocketMessage
        ⟨[(7, ⟨"c7", some ⟨"r1", "c7", SessStatus.active, "t0"⟩⟩)], [], [],
          StoreState.empty, [], []⟩
        ⟨7, Message.add ⟨"m1", "hi", "Me", Role.user⟩, false, "e9", "f9", []⟩).connections
      = [(7, ⟨"c7", some ⟨"r1", "c7", SessStatus.active, "t0"⟩⟩)]) ∧
    ((handleWebSocketMessage
        ⟨[(7, ⟨"c7", some ⟨"r1", "c7", SessStatus.active, "t0"⟩⟩)], [], [],
          StoreState.empty, [], []⟩
        ⟨7, Message.add ⟨"m1", "hi", "Me", Role.user⟩, false, "e9", "f9", []⟩).store.messages.find?
        (fun x => x.id = "m1") = some ⟨"m1", "hi", "Me", Role.user⟩) ∧
    ((handleWebSocketMessage
        ⟨[(7, ⟨"c7", some ⟨"r1", "c7", SessStatus.active, "t0"⟩⟩)], [], [],
          StoreState.empty, [], []⟩
        ⟨7, Message.add ⟨"m1", "hi", "Me", Role.user⟩, false, "e9", "f9", []⟩).store.messages.find?
        (fun x => x.id = "e9") =
      some ⟨"e9",
        "Sorry, I'm having trouble connecting to the AI assistant. Please try again.",
        "system", Role.assistant⟩) ∧
    Message.add ⟨"e9",
        "Sorry, I'm having trouble connecting to the AI assistant. Please try again.",
        "system", Role.assistant⟩ ∈
      (handleWebSocketMessage
        ⟨[(7, ⟨"c7", some ⟨"r1", "c7", SessStatus.active, "t0"⟩⟩)], [], [],
          StoreState.empty, [], []⟩
        ⟨7, Message.add ⟨"m1", "hi", "Me", Role.user⟩, false, "e9", "f9", []⟩).broadcasts :=
  gateway_send_failure_recovered
    ⟨[(7, ⟨"c7", some ⟨"r1", "c7", SessStatus.active, "t0"⟩⟩)], [], [],
      StoreState.empty, [], []⟩
    ⟨7, Message.add ⟨"m1", "hi", "Me", Role.user⟩, false, "e9", "f9", []⟩
    ⟨"m1", "hi", "Me", Role.user⟩
    (7, ⟨"c7", some ⟨"r1", "c7", SessStatus.active, "t0"⟩⟩)
    ⟨"r1", "c7", SessStatus.active, "t0"⟩
    (Or.inl rfl) rfl rfl (by decide) rfl rfl rfl (by decide)

/-! ## The webhook pipeline -/

/-- One typed block of `body.message.content` when it arrives as an
array: `{type, text}`. -/
structure ContentBlock where
  type : String
  text : String
deriving DecidableEq, Repr

/-- Shape of `body.message.content` after JSON parsing: a plain string,
an ordered array of typed blocks, or anything else (absent / object /
number — neither `Array.isArray` nor `typeof === "string"`). -/
inductive Content where
  | str (s : String)
  | blocks (bs : List ContentBlock)
  | other
deriving DecidableEq, Repr

/-- Text extraction of `handleGigaMLWebhook`
(src/server/index.ts:774-787): an array keeps the `text` fields of its
text-typed blocks in order, joined by single spaces (`join(" ")`); a
string is taken verbatim; anything else falls back to the placeholder
`"Assistant response received"`. -/
def extractContent : Content → String
  | .blocks bs =>
    String.intercalate " " ((bs.filter (fun b => b.type = "text")).map (·.text))
  | .str s => s
  | .other => "Assistant response received"

/-- An inbound webhook POST after JSON parsing, as the handlers read it:
the `Authorization` header, the `ticket_id` field (`none` = absent or
falsy) and `body.message`'s content (`none` = `body.message` absent). -/
structure WebhookRequest where
  auth : Option String
  ticketId : Option String
  message : Option Content
deriving DecidableEq, Repr

/-- If `pat` is a prefix of `s`, the remainder of `s` after it. -/
def stripPrefixChars : List Char → List Char → Option (List Char)
  | [], s => some s
  | _ :: _, [] => none
  | p :: ps, c :: cs => if p = c then stripPrefixChars ps cs else none

/-- Remove the first occurrence of `pat` (as a contiguous run). -/
def replaceFirstChars (pat : List Char) : List Char → List Char
  | [] => []
  | c :: cs =>
    match stripPrefixChars pat (c :: cs) with
    | some rest => rest
    | none => c :: replaceFirstChars pat cs

/-- JS `String.replace` with a string pattern and empty replacement
deletes only the FIRST occurrence — used for
`authHeader.replace("Bearer ", "")`. -/
def replaceFirst (s pat : String) : String :=
  ⟨replaceFirstChars pat.data s.data⟩

/-- The auth validation of `handleGigaMLWebhook`
(src/server/index.ts:715-732): missing header or unconfigured key → 401;
otherwise the header minus its first `"Bearer "` must equal the key. -/
def webhookAuthOk (apiKey : Option String) (auth : Option String) : Bool :=
  match auth, apiKey with
  | some a, some k => replaceFirst a "Bearer " = k
  | _, _ => false

/-- HTTP outcome of a webhook delivery: 401 / 400 / 404 / 200 (carrying
the assistant message that was persisted). -/
inductive WebhookOutcome where
  | unauthorized
  | invalid
  | notFound
  | delivered (msg : ChatMessage)
deriving DecidableEq, Repr

/-- The webhook session lookup (src/server/index.ts:747-772): any
in-memory session with this ticket (any status), else an active durable
row. -/
def findWebhookSession (r : RoomState) (tid : String) : Option GigaMLSession :=
  match r.gigamlSessions.find? (fun p => p.2.ticketId = tid) with
  | some p => some p.2
  | none =>
    match r.sessionRows.find?
        (fun row => row.ticketId = tid ∧ row.status = SessStatus.active) with
    | some row => some (GigaMLSession.mk row.ticketId row.userId row.status row.createdAt)
    | none => none

/-- `Chat.handleGigaMLWebhook` (src/server/index.ts:708-820): auth, then
payload shape (`ticket_id` and `message` present), then session lookup,
then text extraction; the resulting assistant message (fresh id `newId`,
user "Rio Assistant") is persisted and, when connections exist,
broadcast (`failed` = local sends that throw). -/
def handleGigaMLWebhook (apiKey : Option String) (req : WebhookRequest)
    (r : RoomState) (newId : String) (failed : List Nat) :
    WebhookOutcome × RoomState :=
  if ¬ webhookAuthOk apiKey req.auth then (.unauthorized, r)
  else
    match req.ticketId, req.message with
    | none, _ => (.invalid, r)
    | some _, none => (.invalid, r)
    | some tid, some content =>
      match findWebhookSession r tid with
      | none => (.notFound, r)
      | some _ =>
        let msg : ChatMessage :=
          ⟨newId, extractContent content, "Rio Assistant", Role.assistant⟩
        let r1 := { r with store := saveMessage r.store msg }
        let r2 :=
          if r1.connections.length > 0 then broadcastStep r1 (.add msg) [] failed
          else r1
        (.delivered msg, r2)

/-- The router object's registry, the rooms reachable from it (a total
map from Durable Object room name to room state) and the configured
shared secret. -/
structure PipelineState where
  registry : List (String × String)
  rooms : String → RoomState
  apiKey : Option String

/-- `Chat.routeGigaMLWebhook` (src/server/index.ts:864-936): extract
`ticket_id` (400 when absent), look it up in the durable
`session_registry` (404 when absent — also the normal answer before any
registration exists), then forward the body together with the original
`Authorization` header into the owning room's webhook handler. -/
def routeGigaMLWebhook (st : PipelineState) (req : WebhookRequest)
    (newId : String) (failed : List Nat) : WebhookOutcome × PipelineState :=
  match req.ticketId with
  | none => (.invalid, st)
  | some tid =>
    match st.registry.find? (fun p => p.1 = tid) with
    | none => (.notFound, st)
    | some p =>
      let out := handleGigaMLWebhook st.apiKey req (st.rooms p.2) newId failed
      (out.1, { st with rooms := fun i => if i = p.2 then out.2 else st.rooms i })

/-- The main worker's `/webhook/gigaml` entry
(src/server/index.ts:968-1032): parse the body, require `ticket_id`
(400), then hand the body and the `Authorization` header to the
`webhook-router` object.  Note no auth check happens here. -/
def workerWebhook (st : PipelineState) (req : WebhookRequest)
    (newId : String) (failed : List Nat) : WebhookOutcome × PipelineState :=
  match req.ticketId with
  | none => (.invalid, st)
  | some _ => routeGigaMLWebhook st req newId failed

/-- Content extraction of the partyserver top-level webhook handler
(src/server/index.ts:1288-1300): `messageContent` starts as `""` and is
only overwritten for array or string content, so absent/other content
stays empty.  (A string content `""` is falsy and also leaves `""`.) -/
def extractContentParty : Option Content → String
  | some (.blocks bs) =>
    String.intercalate " " ((bs.filter (fun b => b.type = "text")).map (·.text))
  | some (.str s) => s
  | some .other => ""
  | none => ""

/-- Outcome of the partyserver top-level webhook handler: 400
`"No content"`, or one assistant add-message forwarded to a room. -/
inductive PartyWebhookOutcome where
  | noContent
  | forwarded (roomId : String) (msg : ChatMessage)
deriving DecidableEq, Repr

/-- The partyserver variant's `/webhook/gigaml` handler
(src/server/index.ts:1279-1331): empty extracted text → 400 and no room
mutation; otherwise forward one assistant message to room
`ticket_id || "default-room"` with id `message_id || randomUUID()`. -/
def partyWebhook (req : WebhookRequest) (msgId : Option String)
    (defaultId : String) : PartyWebhookOutcome :=
  let content := extractContentParty req.message
  if content = "" then .noContent
  else
    .forwarded (req.ticketId.getD "default-room")
      ⟨msgId.getD defaultId, content, "assistant", Role.assistant⟩

/-- C3 counterexample: a webhook whose ticket resolves (active session
for r1), valid auth, and content `[{type:"image",...}]` (no text-typed
block) is NOT rejected with 400 by `Chat.handleGigaMLWebhook` — it
persists an empty-content assistant message and returns 200. -/
theorem webhook_no_text_delivers_cex :
    (handleGigaMLWebhook (some "k")
      ⟨some "Bearer k", some "r1", some (Content.blocks [⟨"image", "x"⟩])⟩
      ⟨[], [("c0", ⟨"r1", "c0", SessStatus.active, "t0"⟩)], [], StoreState.empty, [], []⟩
      "g1" []).1 ≠ WebhookOutcome.invalid ∧
    (handleGigaMLWebhook (some "k")
      ⟨some "Bearer k", some "r1", some (Content.blocks [⟨"image", "x"⟩])⟩
      ⟨[], [("c0", ⟨"r1", "c0", SessStatus.active, "t0"⟩)], [], StoreState.empty, [], []⟩
      "g1" []).2.store.messages =
      [⟨"g1", "", "Rio Assistant", Role.assistant⟩] := by
  decide

/-- C3 amended: on a resolvable ticket with no extractable text the main
room handler does NOT return `invalid` — it persists (and would
broadcast) a fallback assistant message and returns 200: content
"Assistant response received" when `message.content` is neither string
nor array, and the empty string when it is an array without text-typed
blocks.  Only the partyserver top-level webhook handler implements the
spec'd behavior: empty extracted text → 400 `"No content"` and no room
mutation. -/
theorem webhook_no_text_fallback :
    (∀ (k : String) (req : WebhookRequest) (r : RoomState) (tid newId : String)
        (failed : List Nat) (sess : GigaMLSession),
      webhookAuthOk (some k) req.auth = true →
      req.ticketId = some tid →
      req.message = some Content.other →
      findWebhookSession r tid = some sess →
      (handleGigaMLWebhook (some k) req r newId failed).1 =
        WebhookOutcome.delivered
          ⟨newId, "Assistant response received", "Rio Assistant", Role.assistant⟩ ∧
      (handleGigaMLWebhook (some k) req r newId failed).2.store =
        saveMessage r.store
          ⟨newId, "Assistant response received", "Rio Assistant", Role.assistant⟩) ∧
    (∀ (k : String) (req : WebhookRequest) (r : RoomState) (tid newId : String)
        (failed : List Nat) (sess : GigaMLSession) (bs : List ContentBlock),
      webhookAuthOk (some k) req.auth = true →
      req.ticketId = some tid →
      req.message = some (Content.blocks bs) →
      (∀ b ∈ bs, ¬ b.type = "text") →
      findWebhookSession r tid = some sess →
      (handleGigaMLWebhook (some k) req r newId failed).1 =
        WebhookOutcome.delivered ⟨newId, "", "Rio Assistant", Role.assistant⟩) ∧
    (∀ (req : WebhookRequest) (msgId : Option String) (defaultId : String),
      extractContentParty req.message = "" →
      partyWebhook req msgId defaultId = PartyWebhookOutcome.noContent) := by
  refine ⟨?_, ?_, ?_⟩
  · intro k req r tid newId failed sess hauth ht hm hs
    refine ⟨?_, ?_⟩
    · simp [handleGigaMLWebhook, hauth, ht, hm, hs, extractContent]
    · simp [handleGigaMLWebhook, hauth, ht, hm, hs, extractContent]
      split <;> rfl
  · intro k req r tid newId failed sess bs hauth ht hm hall hs
    have hfil : bs.filter (fun b => b.type = "text") = [] := by
      rw [List.filter_eq_nil_iff]
      intro b hb
      simpa using hall b hb
    simp [handleGigaMLWebhook, hauth, ht, hm, hs, extractContent, hfil,
      String.intercalate]
  · intro req msgId defaultId h
    unfold partyWebhook
    rw [h]
    simp

/-- Witness for the amended C3 at concrete inputs: non-array/non-string
content yields the placeholder delivery; a no-text block array yields an
empty-content delivery; the partyserver handler rejects it with 400. -/
theorem webhook_no_text_fallback_witness :
    ((handleGigaMLWebhook (some "k")
        ⟨some "Bearer k", some "r1", some Content.other⟩
        ⟨[], [("c0", ⟨"r1", "c0", SessStatus.active, "t0"⟩)], [], StoreState.empty, [], []⟩
        "g1" []).1 =
      WebhookOutcome.delivered
        ⟨"g1", "Assistant response received", "Rio Assistant", Role.assistant⟩ ∧
    (handleGigaMLWebhook (some "k")
        ⟨some "Bearer k", some "r1", some Content.other⟩
        ⟨[], [("c0", ⟨"r1", "c0", SessStatus.active, "t0"⟩)], [], StoreState.empty, [], []⟩
        "g1" []).2.store =
      saveMessage StoreState.empty
        ⟨"g1", "Assistant response received", "Rio Assistant", Role.assistant⟩) ∧
    (handleGigaMLWebhook (some "k")
        ⟨some "Bearer k", some "r1", some (Content.blocks [⟨"image", "x"⟩])⟩
        ⟨[], [("c0", ⟨"r1", "c0", SessStatus.active, "t0"⟩)], [], StoreState.empty, [], []⟩
        "g1" []).1 =
      WebhookOutcome.delivered ⟨"g1", "", "Rio Assistant", Role.assistant⟩ ∧
    partyWebhook ⟨some "Bearer k", some "r1", some (Content.blocks [⟨"image", "x"⟩])⟩
        (some "m1") "d1" = PartyWebhookOutcome.noContent :=
  ⟨webhook_no_text_fallback.1 "k"
      ⟨some "Bearer k", some "r1", some Content.other⟩
      ⟨[], [("c0", ⟨"r1", "c0", SessStatus.active, "t0"⟩)], [], StoreState.empty, [], []⟩
      "r1" "g1" [] ⟨"r1", "c0", SessStatus.active, "t0"⟩
      (by decide) rfl rfl (by decide),
   webhook_no_text_fallback.2.1 "k"
      ⟨some "Bearer k", some "r1", some (Content.blocks [⟨"image", "x"⟩])⟩
      ⟨[], [("c0", ⟨"r1", "c0", SessStatus.active, "t0"⟩)], [], StoreState.empty, [], []⟩
      "r1" "g1" [] ⟨"r1", "c0", SessStatus.active, "t0"⟩ [⟨"image", "x"⟩]
      (by decide) rfl rfl (by decide) (by decide),
   webhook_no_text_fallback.2.2
      ⟨some "Bearer k", some "r1", some (Content.blocks [⟨"image", "x"⟩])⟩
      (some "m1") "d1" (by decide)⟩

/-- C7 counterexample: auth is NOT the first validation step of the
inbound pipeline.  With a configured key, a POST with no Authorization
header and an unregistered ticket is answered 404 — the ticket was
extracted and the registry consulted before any auth check — not 401. -/
theorem webhook_auth_not_first_cex :
    ¬ ∀ (st : PipelineState) (req : WebhookRequest) (newId : String)
        (failed : List Nat),
        webhookAuthOk st.apiKey req.auth = false →
        (workerWebhook st req newId failed).1 = WebhookOutcome.unauthorized := by
  intro h
  exact absurd
    (h ⟨[], fun _ => ⟨[], [], [], StoreState.empty, [], []⟩, some "k"⟩
      ⟨none, some "t", some (Content.str "x")⟩ "g" [] rfl)
    (by decide)

/-- C7 amended: the bearer check lives in the room-level handler, after
the worker's ticket extraction and the router's registry lookup.  A
bad-auth request therefore never mutates any room (the rooms map and the
registry are unchanged), but its status is 400 when the ticket is
absent, 404 when it is unregistered, and only 401 — still with no
persistence or broadcast — once the ticket resolves to a room. -/
theorem webhook_bad_auth_no_mutation (st : PipelineState) (req : WebhookRequest)
    (newId : String) (failed : List Nat)
    (hauth : webhookAuthOk st.apiKey req.auth = false) :
    ((workerWebhook st req newId failed).2.rooms = st.rooms ∧
     (workerWebhook st req newId failed).2.registry = st.registry) ∧
    ((workerWebhook st req newId failed).1 = WebhookOutcome.invalid ∨
     (workerWebhook st req newId failed).1 = WebhookOutcome.notFound ∨
     (workerWebhook st req newId failed).1 = WebhookOutcome.unauthorized) ∧
    (∀ (tid : String) (p : String × String), req.ticketId = some tid →
      st.registry.find? (fun z => z.1 = tid) = some p →
      (workerWebhook st req newId failed).1 = WebhookOutcome.unauthorized) := by
  have hroom : ∀ i, handleGigaMLWebhook st.apiKey req i newId failed
      = (WebhookOutcome.unauthorized, i) := by
    intro i
    unfold handleGigaMLWebhook
    rw [hauth]
    simp
  unfold workerWebhook routeGigaMLWebhook
  cases ht : req.ticketId with
  | none =>
    refine ⟨⟨rfl, rfl⟩, Or.inl rfl, ?_⟩
    intro tid p h1 h2
    cases h1
  | some tid =>
    dsimp only
    cases hfind : st.registry.find? (fun p => p.1 = tid) with
    | none =>
      refine ⟨⟨rfl, rfl⟩, Or.inr (Or.inl rfl), ?_⟩
      intro tid' p h1 h2
      cases h1
      rw [hfind] at h2
      cases h2
    | some p =>
      dsimp only
      rw [hroom]
      refine ⟨⟨?_, rfl⟩, Or.inr (Or.inr rfl), fun _ _ _ _ => rfl⟩
      funext i
      by_cases hi : i = p.2 <;> simp [hi]

/-- Witness for the amended C7: a bad-auth request whose ticket IS
registered gets 401 from the room handler and mutates no room. -/
theorem webhook_bad_auth_no_mutation_witness :
    (workerWebhook
        ⟨[("t", "room1")], fun _ => ⟨[], [], [], StoreState.empty, [], []⟩, some "k"⟩
        ⟨none, some "t", some (Content.str "x")⟩ "g" []).2.rooms =
      (fun _ => ⟨[], [], [], StoreState.empty, [], []⟩) ∧
    (workerWebhook
        ⟨[("t", "room1")], fun _ => ⟨[], [], [], StoreState.empty, [], []⟩, some "k"⟩
        ⟨none, some "t", some (Content.str "x")⟩ "g" []).1 =
      WebhookOutcome.unauthorized :=
  ⟨(webhook_bad_auth_no_mutation
      ⟨[("t", "room1")], fun _ => ⟨[], [], [], StoreState.empty, [], []⟩, some "k"⟩
      ⟨none, some "t", some (Content.str "x")⟩ "g" [] rfl).1.1,
   (webhook_bad_auth_no_mutation
      ⟨[("t", "room1")], fun _ => ⟨[], [], [], StoreState.empty, [], []⟩, some "k"⟩
      ⟨none, some "t", some (Content.str "x")⟩ "g" [] rfl).2.2
      "t" ("t", "room1") rfl (by decide)⟩

/-- C8: a webhook whose ticket has no registry entry is answered 404 by
the router with the whole pipeline state unchanged — no room is reached,
nothing is persisted or broadcast.  An empty registry (no registration
ever) is one instance of the hypothesis. -/
theorem webhook_unknown_ticket_not_found (st : PipelineState)
    (req : WebhookRequest) (tid newId : String) (failed : List Nat)
    (ht : req.ticketId = some tid)
    (hlook : st.registry.find? (fun p => p.1 = tid) = none) :
    routeGigaMLWebhook st req newId failed = (WebhookOutcome.notFound, st) := by
  unfold routeGigaMLWebhook
  rw [ht]
  dsimp only
  rw [hlook]

/-- Witness for C8 with the never-registered (empty) registry. -/
theorem webhook_unknown_ticket_not_found_witness :
    routeGigaMLWebhook
      ⟨[], fun _ => ⟨[], [], [], StoreState.empty, [], []⟩, some "k"⟩
      ⟨some "Bearer k", some "t1", some (Content.str "hi")⟩ "g" [] =
    (WebhookOutcome.notFound,
      ⟨[], fun _ => ⟨[], [], [], StoreState.empty, [], []⟩, some "k"⟩) :=
  webhook_unknown_ticket_not_found
    ⟨[], fun _ => ⟨[], [], [], StoreState.empty, [], []⟩, some "k"⟩
    ⟨some "Bearer k", some "t1", some (Content.str "hi")⟩ "t1" "g" [] rfl rfl

/-- C9: for a delivery with valid auth and a resolvable ticket, the
persisted assistant message's content is exactly the extraction of the
payload content: for an ordered block array, the `text` fields of the
text-typed blocks in their original order joined by single spaces
(non-text blocks skipped); for a plain string, that string.  Exactly one
message is saved (one `saveMessage` on the store). -/
theorem webhook_content_extraction (k : String) (req : WebhookRequest)
    (r : RoomState) (tid newId : String) (failed : List Nat)
    (sess : GigaMLSession) (c : Content)
    (hauth : webhookAuthOk (some k) req.auth = true)
    (ht : req.ticketId = some tid)
    (hm : req.message = some c)
    (hs : findWebhookSession r tid = some sess) :
    (handleGigaMLWebhook (some k) req r newId failed).1 =
      WebhookOutcome.delivered
        ⟨newId, extractContent c, "Rio Assistant", Role.assistant⟩ ∧
    (handleGigaMLWebhook (some k) req r newId failed).2.store =
      saveMessage r.store
        ⟨newId, extractContent c, "Rio Assistant", Role.assistant⟩ ∧
    (∀ bs, c = Content.blocks bs →
      extractContent c = String.intercalate " "
        ((bs.filter (fun b => b.type = "text")).map (·.text))) ∧
    (∀ s, c = Content.str s → extractContent c = s) := by
  refine ⟨?_, ?_, ?_, ?_⟩
  · simp [handleGigaMLWebhook, hauth, ht, hm, hs]
  · simp [handleGigaMLWebhook, hauth, ht, hm, hs]
    split <;> rfl
  · intro bs hc
    rw [hc]
    rfl
  · intro s hc
    rw [hc]
    rfl

/-- Witness for C9 at the spec's scenario: blocks
`[text "Hello", image, text "there"]` deliver exactly one assistant
message with content `"Hello there"`. -/
theorem webhook_content_extraction_witness :
    (handleGigaMLWebhook (some "k")
        ⟨some "Bearer k", some "r1",
          some (Content.blocks [⟨"text", "Hello"⟩, ⟨"image", "pic"⟩, ⟨"text", "there"⟩])⟩
        ⟨[], [("c0", ⟨"r1", "c0", SessStatus.active, "t0"⟩)], [],
          StoreState.empty, [], []⟩ "g1" []).1 =
      WebhookOutcome.delivered ⟨"g1", "Hello there", "Rio Assistant", Role.assistant⟩ := by
  have h := (webhook_content_extraction "k"
      ⟨some "Bearer k", some "r1",
        some (Content.blocks [⟨"text", "Hello"⟩, ⟨"image", "pic"⟩, ⟨"text", "there"⟩])⟩
      ⟨[], [("c0", ⟨"r1", "c0", SessStatus.active, "t0"⟩)], [],
        StoreState.empty, [], []⟩ "r1" "g1" []
      ⟨"r1", "c0", SessStatus.active, "t0"⟩
      (Content.blocks [⟨"text", "Hello"⟩, ⟨"image", "pic"⟩, ⟨"text", "there"⟩])
      (by decide) rfl rfl (by decide)).1
  rw [h]
  decide

end RioRita
